import Mathlib

/-!
# Verification of the Universal Proxy Server forwarding handler

Shallow embedding of `src/proxy.ts` (Express + node-fetch universal HTTP
proxy).  The per-request behaviour of the app is pure once the outbound
`fetch` is abstracted as a function parameter, so the whole handler is
embedded as a Lean function from the inbound request (and a fetch oracle)
to the client response, together with the outbound call it performed
(if any).

Platform facts baked into the model, matching the Node/Express runtime:
* Node lowercases all incoming request header names, so `req.headers` is a
  string-keyed object whose keys are lowercase (stated as a hypothesis
  `HeadersLower` where a theorem needs it);
* node-fetch v3 `Headers` stores names lowercased with duplicates combined,
  so its `forEach` visits each (lowercase) name once;
* `res.setHeader` replaces any previously set header with the same name,
  compared case-insensitively;
* `express.json()` (body-parser) initializes `req.body` to the empty object
  and only replaces it when the request carries a parseable JSON body.
-/

namespace UniversalProxy

/-- ASCII lower-casing, the `name.toLowerCase()` of the source (header
names are ASCII). Written via `List.map` so that it reduces in the kernel. -/
def strLower (s : String) : String := String.mk (s.data.map Char.toLower)

/-- ASCII upper-casing, the `req.method.toUpperCase()` of the source. -/
def strUpper (s : String) : String := String.mk (s.data.map Char.toUpper)

/-- JSON values, as produced by the `express.json()` body parser
(`req.body`). -/
inductive Json where
  | null : Json
  | bool (b : Bool) : Json
  | num (n : Int) : Json
  | str (s : String) : Json
  | arr (elems : List Json) : Json
  | obj (fields : List (String × Json)) : Json

/-- Escaping of one character inside a JSON string literal
(`JSON.stringify` string escaping, restricted to the quote and backslash
cases that our inputs exercise). -/
def jsonEscapeChar (c : Char) : String :=
  if c = '\\' then "\\\\"
  else if c = '"' then "\\\""
  else String.singleton c

/-- `JSON.stringify` on a string. -/
def jsonEscape (s : String) : String :=
  String.join (s.toList.map jsonEscapeChar)

mutual

/-- `JSON.stringify`, the serialization applied to `req.body` at
`fetchOptions.body = JSON.stringify(req.body)`. -/
def Json.stringify : Json → String
  | .null => "null"
  | .bool true => "true"
  | .bool false => "false"
  | .num n => toString n
  | .str s => "\"" ++ jsonEscape s ++ "\""
  | .arr elems => "[" ++ stringifyElems elems ++ "]"
  | .obj fields => "\x7b" ++ stringifyFields fields ++ "\x7d"

/-- Comma-separated serialization of JSON array elements. -/
def Json.stringifyElems : List Json → String
  | [] => ""
  | [j] => j.stringify
  | j :: rest => j.stringify ++ "," ++ stringifyElems rest

/-- Comma-separated serialization of JSON object fields. -/
def Json.stringifyFields : List (String × Json) → String
  | [] => ""
  | [(k, v)] => "\"" ++ jsonEscape k ++ "\":" ++ v.stringify
  | (k, v) :: rest =>
      "\"" ++ jsonEscape k ++ "\":" ++ v.stringify ++ "," ++ stringifyFields rest

end

/-- The `express.json()` body-parsing middleware (body-parser): `req.body`
is initialized to the empty object `\x7b\x7d` and replaced by the parsed
JSON value only when the inbound request carries a JSON body. -/
def expressJson (jsonBody : Option Json) : Json :=
  match jsonBody with
  | some parsed => parsed
  | none => Json.obj []

/-- An inbound Express request as the handler sees it: `req.method`,
`req.query.url` (absent when the query parameter is missing),
`req.headers` (a string-keyed object; Node has lowercased the names), and
`req.body` (set by `express.json()`). -/
structure InboundRequest where
  method : String
  urlParam : Option String
  headers : List (String × String)
  body : Json

/-- The Node invariant on `req.headers`: all header names are lowercase. -/
def HeadersLower (hs : List (String × String)) : Prop :=
  ∀ p ∈ hs, strLower (Prod.fst p) = Prod.fst p

/-- The node-fetch `RequestInit` options built by the handler. -/
structure FetchOptions where
  method : String
  headers : List (String × String)
  redirect : String
  body : Option String
deriving DecidableEq

/-- The target's response as node-fetch returns it: status, headers
(a node-fetch `Headers`: lowercase names, duplicates combined), and an
optional body stream (modelled by its contents). -/
structure TargetResponse where
  status : Nat
  headers : List (String × String)
  body : Option String

/-- A value thrown by the outbound call: either a proper `Error` carrying
a message, or any non-`Error` value (`null`, a plain object, ...) — the
distinction tested by `err instanceof Error`. -/
inductive Thrown where
  | error (message : String) : Thrown
  | nonError : Thrown

/-- The outbound world: what `fetch(targetUrl, fetchOptions)` settles to. -/
def FetchFn : Type :=
  String → FetchOptions → Except Thrown TargetResponse

/-- The response the client receives: status, the headers set via
`res.setHeader`, and the body text. -/
structure ClientResponse where
  status : Nat
  headers : List (String × String)
  body : String

/-- JS object indexing `hs[k]` on a string-keyed record. -/
def objGet (hs : List (String × String)) (k : String) : Option String :=
  (hs.find? (fun p => Prod.fst p = k)).map Prod.snd

/-- JS assignment `hs[k] = v` on a string-keyed record: overwrite the
existing entry, else append a new one. -/
def objSet (hs : List (String × String)) (k v : String) : List (String × String) :=
  if hs.any (fun p => Prod.fst p = k) then
    hs.map (fun p => if Prod.fst p = k then (k, v) else p)
  else
    hs ++ [(k, v)]

/-- JS `delete hs[k]` on a string-keyed record. -/
def objDelete (hs : List (String × String)) (k : String) : List (String × String) :=
  hs.filter (fun p => Prod.fst p ≠ k)

/-- Node `res.setHeader(n, v)`: replace any header whose name matches
case-insensitively, else append. -/
def setHeader (hs : List (String × String)) (n v : String) : List (String × String) :=
  if hs.any (fun p => strLower (Prod.fst p) = strLower n) then
    hs.map (fun p => if strLower (Prod.fst p) = strLower n then (n, v) else p)
  else
    hs ++ [(n, v)]

/-- Node `res.getHeader(n)` / the header the client observes under name
`n`, looked up case-insensitively. -/
def getHeader (hs : List (String × String)) (n : String) : Option String :=
  (hs.find? (fun p => strLower (Prod.fst p) = strLower n)).map Prod.snd

/-- Lines 76–88: the `fetchOptions` object — inbound method, the spread of
`req.headers` with `host` deleted, `redirect: 'follow'`, and for
POST/PUT/PATCH the JSON-serialized body with `content-type` overridden. -/
def buildFetchOptions (req : InboundRequest) : FetchOptions :=
  let headers := objDelete req.headers "host"
  if ["POST", "PUT", "PATCH"].contains (strUpper req.method) then
    { method := req.method
      headers := objSet headers "content-type" "application/json"
      redirect := "follow"
      body := some (Json.stringify req.body) }
  else
    { method := req.method
      headers := headers
      redirect := "follow"
      body := none }

/-- The three CORS header names skipped when relaying target headers
(lines 100–105), lowercase as in the source. -/
def corsHeaderNames : List String :=
  ["access-control-allow-origin", "access-control-allow-headers",
   "access-control-allow-methods"]

/-- Lines 94–96: the three wildcard CORS headers installed with
`res.setHeader` before any target header is copied. -/
def corsBase : List (String × String) :=
  setHeader
    (setHeader
      (setHeader [] "Access-Control-Allow-Origin" "*")
      "Access-Control-Allow-Headers" "*")
    "Access-Control-Allow-Methods" "*"

/-- Lines 99–109: `proxyRes.headers.forEach`, copying each target header
to the client via `res.setHeader` unless its lowercased name is one of the
three CORS names. -/
def relayHeaders (init : List (String × String))
    (targetHeaders : List (String × String)) : List (String × String) :=
  targetHeaders.foldl
    (fun acc p =>
      if corsHeaderNames.contains (strLower (Prod.fst p)) then acc
      else setHeader acc (Prod.fst p) (Prod.snd p))
    init

/-- Line 121: `err instanceof Error ? err.message : 'Unknown proxy error'`. -/
def thrownMessage : Thrown → String
  | .error m => m
  | .nonError => "Unknown proxy error"

/-- Lines 67–124: the `app.use('/proxy', ...)` handler. Returns the client
response together with the outbound call performed (`none` when `fetch`
was never invoked). -/
def proxyHandler (fetchFn : FetchFn) (req : InboundRequest) :
    ClientResponse × Option (String × FetchOptions) :=
  match req.urlParam with
  | none =>
      ({ status := 400, headers := [], body := "Missing url query parameter." }, none)
  | some targetUrl =>
      if targetUrl = "" then
        ({ status := 400, headers := [], body := "Missing url query parameter." }, none)
      else
        let fetchOptions := buildFetchOptions req
        match fetchFn targetUrl fetchOptions with
        | .error err =>
            ({ status := 500, headers := [], body := "Proxy error: " ++ thrownMessage err },
             some (targetUrl, fetchOptions))
        | .ok proxyRes =>
            let hs := relayHeaders corsBase proxyRes.headers
            ({ status := proxyRes.status
               headers := hs
               body := proxyRes.body.getD "" },
             some (targetUrl, fetchOptions))

/-- Lines 135–140: the `app.options('/proxy', ...)` handler — CORS triad
plus `res.sendStatus(204)` (no body). As an Express route it only matches
OPTIONS requests; `none` means the route does not match and routing moves
on. -/
def optionsRoute (req : InboundRequest) :
    Option (ClientResponse × Option (String × FetchOptions)) :=
  if req.method = "OPTIONS" then
    some ({ status := 204, headers := corsBase, body := "" }, none)
  else
    none

/-- The `app.use('/proxy', ...)` middleware as a routing layer: it matches
every method, and since it always sends a response and never calls
`next()`, it always settles the request. -/
def useRoute (fetchFn : FetchFn) (req : InboundRequest) :
    Option (ClientResponse × Option (String × FetchOptions)) :=
  some (proxyHandler fetchFn req)

/-- Express routing for a request to `/proxy`, in registration order:
`app.use('/proxy', ...)` (line 67) first, then `app.options('/proxy', ...)`
(line 135), then Express's 404 fallback. -/
def appHandle (fetchFn : FetchFn) (req : InboundRequest) :
    ClientResponse × Option (String × FetchOptions) :=
  match useRoute fetchFn req with
  | some settled => settled
  | none =>
      match optionsRoute req with
      | some settled => settled
      | none => ({ status := 404, headers := [], body := "" }, none)

/-! ## Helper lemmas about the header operations -/

lemma objGet_cons (p : String × String) (t : List (String × String)) (k : String) :
    objGet (p :: t) k =
      if Prod.fst p = k then some (Prod.snd p) else objGet t k := by
  by_cases hp : Prod.fst p = k <;> simp [objGet, List.find?, hp]

lemma getHeader_cons (p : String × String) (t : List (String × String)) (n : String) :
    getHeader (p :: t) n =
      if strLower (Prod.fst p) = strLower n then some (Prod.snd p) else getHeader t n := by
  by_cases hp : strLower (Prod.fst p) = strLower n <;> simp [getHeader, List.find?, hp]

lemma objSet_cons_of_ne (p : String × String) (t : List (String × String)) (k v : String)
    (hp : Prod.fst p ≠ k) :
    objSet (p :: t) k v = p :: objSet t k v := by
  cases hany : t.any (fun q => Prod.fst q = k) <;>
    simp [objSet, List.any_cons, hany, hp]

lemma objGet_objSet_self (hs : List (String × String)) (k v : String) :
    objGet (objSet hs k v) k = some v := by
  induction hs with
  | nil => simp [objGet, objSet, List.find?]
  | cons p t ih =>
      by_cases hp : Prod.fst p = k
      · have e : objSet (p :: t) k v =
            (k, v) :: t.map (fun q => if Prod.fst q = k then (k, v) else q) := by
          simp [objSet, List.any_cons, hp]
        rw [e, objGet_cons]
        simp
      · rw [objSet_cons_of_ne p t k v hp, objGet_cons]
        simp [hp, ih]

lemma mem_objSet_elim (hs : List (String × String)) (k v : String)
    (q : String × String) (hq : q ∈ objSet hs k v) :
    q ∈ hs ∨ q = (k, v) := by
  unfold objSet at hq
  split at hq
  · rcases List.mem_map.mp hq with ⟨r, hr, hrq⟩
    by_cases hk : Prod.fst r = k
    · right
      rw [if_pos hk] at hrq
      exact hrq.symm
    · left
      rw [if_neg hk] at hrq
      exact hrq ▸ hr
  · rcases List.mem_append.mp hq with h | h
    · exact Or.inl h
    · right
      simpa using h

lemma mem_objSet_of_mem (hs : List (String × String)) (k v : String)
    (q : String × String) (hq : q ∈ hs) (hk : Prod.fst q ≠ k) :
    q ∈ objSet hs k v := by
  unfold objSet
  split
  · refine List.mem_map.mpr ⟨q, hq, ?_⟩
    simp [hk]
  · exact List.mem_append.mpr (Or.inl hq)

lemma setHeader_cons_of_ne (p : String × String) (t : List (String × String)) (n v : String)
    (hp : strLower (Prod.fst p) ≠ strLower n) :
    setHeader (p :: t) n v = p :: setHeader t n v := by
  cases hany : t.any (fun q => strLower (Prod.fst q) = strLower n) <;>
    simp [setHeader, List.any_cons, hany, hp]

lemma getHeader_setHeader_self (hs : List (String × String)) (n n' v : String)
    (h : strLower n' = strLower n) :
    getHeader (setHeader hs n v) n' = some v := by
  induction hs with
  | nil => simp [setHeader, getHeader, List.find?, h]
  | cons p t ih =>
      by_cases hp : strLower (Prod.fst p) = strLower n
      · have e : setHeader (p :: t) n v =
            (n, v) ::
              t.map (fun q => if strLower (Prod.fst q) = strLower n then (n, v) else q) := by
          simp [setHeader, List.any_cons, hp]
        rw [e, getHeader_cons]
        simp [h]
      · have hp' : strLower (Prod.fst p) ≠ strLower n' := by rw [h]; exact hp
        rw [setHeader_cons_of_ne p t n v hp, getHeader_cons]
        simp [hp', ih]

lemma getHeader_map_replace (t : List (String × String)) (n n' v : String)
    (h : strLower n' ≠ strLower n) :
    getHeader (t.map (fun q => if strLower (Prod.fst q) = strLower n then (n, v) else q)) n' =
      getHeader t n' := by
  induction t with
  | nil => rfl
  | cons q t ih =>
      by_cases hq : strLower (Prod.fst q) = strLower n
      · have h1 : strLower n ≠ strLower n' := fun hc => h hc.symm
        have hq' : strLower (Prod.fst q) ≠ strLower n' := by rw [hq]; exact h1
        rw [List.map_cons, if_pos hq, getHeader_cons, getHeader_cons, ih]
        simp [h1, hq']
      · rw [List.map_cons, if_neg hq, getHeader_cons, getHeader_cons, ih]

lemma getHeader_setHeader_ne (hs : List (String × String)) (n n' v : String)
    (h : strLower n' ≠ strLower n) :
    getHeader (setHeader hs n v) n' = getHeader hs n' := by
  induction hs with
  | nil =>
      have h' : strLower n ≠ strLower n' := fun hc => h hc.symm
      simp [setHeader, getHeader, List.find?, h']
  | cons p t ih =>
      by_cases hp : strLower (Prod.fst p) = strLower n
      · have h1 : strLower n ≠ strLower n' := fun hc => h hc.symm
        have hp' : strLower (Prod.fst p) ≠ strLower n' := by rw [hp]; exact h1
        have e : setHeader (p :: t) n v =
            (n, v) ::
              t.map (fun q => if strLower (Prod.fst q) = strLower n then (n, v) else q) := by
          simp [setHeader, List.any_cons, hp]
        rw [e, getHeader_cons, getHeader_cons]
        simp [h1, hp', getHeader_map_replace t n n' v h]
      · rw [setHeader_cons_of_ne p t n v hp, getHeader_cons, getHeader_cons, ih]

lemma getHeader_congr (hs : List (String × String)) (n n' : String)
    (h : strLower n = strLower n') :
    getHeader hs n = getHeader hs n' := by
  unfold getHeader
  simp only [h]

lemma relayHeaders_cons (init : List (String × String)) (p : String × String)
    (t : List (String × String)) :
    relayHeaders init (p :: t) =
      relayHeaders
        (if corsHeaderNames.contains (strLower (Prod.fst p)) then init
         else setHeader init (Prod.fst p) (Prod.snd p)) t := rfl

lemma getHeader_relayHeaders_skip :
    ∀ (ths init : List (String × String)) (n : String),
      (∀ p ∈ ths, corsHeaderNames.contains (strLower (Prod.fst p)) = false →
        strLower n ≠ strLower (Prod.fst p)) →
      getHeader (relayHeaders init ths) n = getHeader init n := by
  intro ths
  induction ths with
  | nil => intro init n _; rfl
  | cons p t ih =>
      intro init n h
      rw [relayHeaders_cons]
      cases hc : corsHeaderNames.contains (strLower (Prod.fst p)) with
      | true =>
          rw [if_pos rfl]
          exact ih init n (fun q hq => h q (List.mem_cons_of_mem p hq))
      | false =>
          rw [if_neg Bool.false_ne_true]
          rw [ih _ n (fun q hq => h q (List.mem_cons_of_mem p hq))]
          exact getHeader_setHeader_ne init (Prod.fst p) n (Prod.snd p)
            (h p (List.mem_cons_self p t) hc)

lemma getHeader_relayHeaders_mem :
    ∀ (ths init : List (String × String)) (n v : String),
      HeadersLower ths → ((ths.map Prod.fst).Nodup) → (n, v) ∈ ths →
      corsHeaderNames.contains (strLower n) = false →
      getHeader (relayHeaders init ths) n = some v := by
  intro ths
  induction ths with
  | nil => intro init n v _ _ hmem _; simp at hmem
  | cons p t ih =>
      intro init n v hlc hnd hmem hnc
      have hlct : HeadersLower t := fun q hq => hlc q (List.mem_cons_of_mem p hq)
      rw [relayHeaders_cons]
      rcases List.mem_cons.mp hmem with heq | hmem'
      · have hp1 : Prod.fst p = n := by rw [← heq]
        have hp2 : Prod.snd p = v := by rw [← heq]
        have hlow : strLower n = n := by
          have := hlc p (List.mem_cons_self p t)
          rwa [hp1] at this
        rw [if_neg (by rw [hp1, hnc]; exact Bool.false_ne_true)]
        have hnotin : ∀ q ∈ t, corsHeaderNames.contains (strLower (Prod.fst q)) = false →
            strLower n ≠ strLower (Prod.fst q) := by
          intro q hq _
          have hq1 : strLower (Prod.fst q) = Prod.fst q :=
            hlc q (List.mem_cons_of_mem p hq)
          have hmemfst : Prod.fst q ∈ t.map Prod.fst := List.mem_map_of_mem Prod.fst hq
          have hnm : Prod.fst p ∉ t.map Prod.fst := by
            rw [List.map_cons] at hnd
            exact (List.nodup_cons.mp hnd).1
          rw [hlow, hq1, ← hp1]
          exact fun hcontra => hnm (hcontra ▸ hmemfst)
        rw [getHeader_relayHeaders_skip t _ n hnotin]  -- reduce to the setHeader step
        rw [getHeader_setHeader_self init (Prod.fst p) n (Prod.snd p) (by rw [hp1]), hp2]
      · have hndt : (t.map Prod.fst).Nodup := by
          rw [List.map_cons] at hnd
          exact (List.nodup_cons.mp hnd).2
        exact ih _ n v hlct hndt hmem' hnc

lemma getHeader_corsBase (n : String)
    (h : corsHeaderNames.contains (strLower n) = true) :
    getHeader corsBase n = some "*" := by
  have h' : strLower n = "access-control-allow-origin" ∨
      strLower n = "access-control-allow-headers" ∨
      strLower n = "access-control-allow-methods" := by
    simpa [corsHeaderNames] using h
  rcases h' with h' | h' | h'
  · rw [getHeader_congr corsBase n "access-control-allow-origin" (by rw [h']; decide)]
    decide
  · rw [getHeader_congr corsBase n "access-control-allow-headers" (by rw [h']; decide)]
    decide
  · rw [getHeader_congr corsBase n "access-control-allow-methods" (by rw [h']; decide)]
    decide

/-! ## Scenario lemmas: the four outcomes of a `/proxy` request -/

lemma buildFetchOptions_headers_write (req : InboundRequest)
    (hm : ["POST", "PUT", "PATCH"].contains (strUpper req.method) = true) :
    (buildFetchOptions req).headers =
      objSet (objDelete req.headers "host") "content-type" "application/json" := by
  simp only [buildFetchOptions]
  rw [if_pos hm]

lemma buildFetchOptions_headers_other (req : InboundRequest)
    (hm : ["POST", "PUT", "PATCH"].contains (strUpper req.method) = false) :
    (buildFetchOptions req).headers = objDelete req.headers "host" := by
  simp only [buildFetchOptions]
  rw [if_neg (by rw [hm]; exact Bool.false_ne_true)]

lemma buildFetchOptions_body_write (req : InboundRequest)
    (hm : ["POST", "PUT", "PATCH"].contains (strUpper req.method) = true) :
    (buildFetchOptions req).body = some (Json.stringify req.body) := by
  simp only [buildFetchOptions]
  rw [if_pos hm]

lemma buildFetchOptions_body_other (req : InboundRequest)
    (hm : ["POST", "PUT", "PATCH"].contains (strUpper req.method) = false) :
    (buildFetchOptions req).body = none := by
  simp only [buildFetchOptions]
  rw [if_neg (by rw [hm]; exact Bool.false_ne_true)]

lemma buildFetchOptions_redirect (req : InboundRequest) :
    (buildFetchOptions req).redirect = "follow" := by
  simp only [buildFetchOptions]
  split <;> rfl

lemma appHandle_missing (fetchFn : FetchFn) (req : InboundRequest)
    (h : req.urlParam = none ∨ req.urlParam = some "") :
    appHandle fetchFn req =
      ({ status := 400, headers := [], body := "Missing url query parameter." }, none) := by
  rcases h with h | h <;> simp [appHandle, useRoute, proxyHandler, h]

lemma appHandle_error (fetchFn : FetchFn) (req : InboundRequest) (u : String) (t : Thrown)
    (hu : req.urlParam = some u) (hne : u ≠ "")
    (hf : fetchFn u (buildFetchOptions req) = Except.error t) :
    appHandle fetchFn req =
      ({ status := 500, headers := [], body := "Proxy error: " ++ thrownMessage t },
       some (u, buildFetchOptions req)) := by
  simp [appHandle, useRoute, proxyHandler, hu, hne, hf]

lemma appHandle_ok (fetchFn : FetchFn) (req : InboundRequest) (u : String)
    (tr : TargetResponse)
    (hu : req.urlParam = some u) (hne : u ≠ "")
    (hf : fetchFn u (buildFetchOptions req) = Except.ok tr) :
    appHandle fetchFn req =
      ({ status := tr.status
         headers := relayHeaders corsBase tr.headers
         body := tr.body.getD "" },
       some (u, buildFetchOptions req)) := by
  simp [appHandle, useRoute, proxyHandler, hu, hne, hf]

lemma cors_skip_cond (ths : List (String × String)) (n : String)
    (hn : corsHeaderNames.contains (strLower n) = true) :
    ∀ p ∈ ths, corsHeaderNames.contains (strLower (Prod.fst p)) = false →
      strLower n ≠ strLower (Prod.fst p) := by
  intro p _ hp hcontra
  rw [← hcontra, hn] at hp
  simp at hp

/-! ## Claim theorems -/

/-- C2: for every inbound request of any method (including OPTIONS) whose
`url` query parameter is missing or empty, the handler responds with
status 400 and a body containing the substring "missing"
case-insensitively, and the fetch function is never invoked. -/
theorem missing_url_rejected_no_fetch (fetchFn : FetchFn) (req : InboundRequest)
    (h : req.urlParam = none ∨ req.urlParam = some "") :
    (appHandle fetchFn req).1.status = 400 ∧
    (∃ pre post, strLower (appHandle fetchFn req).1.body = pre ++ "missing" ++ post) ∧
    (appHandle fetchFn req).2 = none := by
  rw [appHandle_missing fetchFn req h]
  exact ⟨rfl, ⟨"", " url query parameter.", by decide⟩, rfl⟩

/-- C2 witness: an OPTIONS request without `url` gets the 400 response and
no outbound call. -/
theorem missing_url_rejected_no_fetch_witness :
    (appHandle (fun _ _ => Except.ok ⟨200, [], none⟩)
        ⟨"OPTIONS", none, [], Json.obj []⟩).1.status = 400 ∧
    (appHandle (fun _ _ => Except.ok ⟨200, [], none⟩)
        ⟨"OPTIONS", none, [], Json.obj []⟩).2 = none :=
  ⟨(missing_url_rejected_no_fetch (fun _ _ => Except.ok ⟨200, [], none⟩)
      ⟨"OPTIONS", none, [], Json.obj []⟩ (Or.inl rfl)).1,
   (missing_url_rejected_no_fetch (fun _ _ => Except.ok ⟨200, [], none⟩)
      ⟨"OPTIONS", none, [], Json.obj []⟩ (Or.inl rfl)).2.2⟩

/-- C3: for every non-OPTIONS request with a present `url`, if the
outbound call throws, the handler responds 500 with body
`"Proxy error: " ++ message` for an error-like thrown value carrying a
message, and `"Proxy error: Unknown proxy error"` for a non-error thrown
value. -/
theorem fetch_failure_500_response (fetchFn : FetchFn) (req : InboundRequest)
    (u : String) (t : Thrown) (_hm : req.method ≠ "OPTIONS")
    (hu : req.urlParam = some u) (hne : u ≠ "")
    (hf : fetchFn u (buildFetchOptions req) = Except.error t) :
    (appHandle fetchFn req).1.status = 500 ∧
    (∀ m, t = Thrown.error m → (appHandle fetchFn req).1.body = "Proxy error: " ++ m) ∧
    (t = Thrown.nonError →
      (appHandle fetchFn req).1.body = "Proxy error: Unknown proxy error") := by
  rw [appHandle_error fetchFn req u t hu hne hf]
  refine ⟨rfl, ?_, ?_⟩
  · intro m hm'
    rw [hm']
    rfl
  · intro hm'
    rw [hm']
    rfl

/-- C3 witness: a GET whose fetch rejects with a non-error value yields
status 500 and the unknown-error body. -/
theorem fetch_failure_500_response_witness :
    (appHandle (fun _ _ => Except.error Thrown.nonError)
        ⟨"GET", some "https://example.com/fail", [], Json.obj []⟩).1.status = 500 ∧
    (appHandle (fun _ _ => Except.error Thrown.nonError)
        ⟨"GET", some "https://example.com/fail", [], Json.obj []⟩).1.body =
      "Proxy error: Unknown proxy error" :=
  ⟨(fetch_failure_500_response (fun _ _ => Except.error Thrown.nonError)
      ⟨"GET", some "https://example.com/fail", [], Json.obj []⟩
      "https://example.com/fail" Thrown.nonError (by decide) rfl (by decide) rfl).1,
   (fetch_failure_500_response (fun _ _ => Except.error Thrown.nonError)
      ⟨"GET", some "https://example.com/fail", [], Json.obj []⟩
      "https://example.com/fail" Thrown.nonError (by decide) rfl (by decide) rfl).2.2 rfl⟩

/-- C4: on the success path of a non-OPTIONS request the client response
carries the three CORS headers as `*`; every non-CORS target header is
observable verbatim on the client response, and for a CORS-named target
header the client still observes `*`, never the target's value. -/
theorem success_path_header_relay (fetchFn : FetchFn) (req : InboundRequest)
    (u : String) (tr : TargetResponse) (_hm : req.method ≠ "OPTIONS")
    (hu : req.urlParam = some u) (hne : u ≠ "")
    (hf : fetchFn u (buildFetchOptions req) = Except.ok tr)
    (hlc : HeadersLower tr.headers) (hnd : (tr.headers.map Prod.fst).Nodup) :
    (getHeader (appHandle fetchFn req).1.headers "Access-Control-Allow-Origin" = some "*" ∧
     getHeader (appHandle fetchFn req).1.headers "Access-Control-Allow-Headers" = some "*" ∧
     getHeader (appHandle fetchFn req).1.headers "Access-Control-Allow-Methods" = some "*") ∧
    (∀ n v, (n, v) ∈ tr.headers → corsHeaderNames.contains (strLower n) = false →
      getHeader (appHandle fetchFn req).1.headers n = some v) ∧
    (∀ n v, (n, v) ∈ tr.headers → corsHeaderNames.contains (strLower n) = true →
      getHeader (appHandle fetchFn req).1.headers n = some "*") := by
  rw [appHandle_ok fetchFn req u tr hu hne hf]
  refine ⟨⟨?_, ?_, ?_⟩, ?_, ?_⟩
  · rw [getHeader_relayHeaders_skip tr.headers corsBase _
      (cors_skip_cond tr.headers _ (by decide))]
    decide
  · rw [getHeader_relayHeaders_skip tr.headers corsBase _
      (cors_skip_cond tr.headers _ (by decide))]
    decide
  · rw [getHeader_relayHeaders_skip tr.headers corsBase _
      (cors_skip_cond tr.headers _ (by decide))]
    decide
  · intro n v hmem hnc
    exact getHeader_relayHeaders_mem tr.headers corsBase n v hlc hnd hmem hnc
  · intro n v hmem hcors
    rw [getHeader_relayHeaders_skip tr.headers corsBase n (cors_skip_cond tr.headers n hcors)]
    exact getHeader_corsBase n hcors

/-- C4 witness: a concrete GET relayed from a target carrying both a
custom header and its own CORS header. -/
theorem success_path_header_relay_witness :
    getHeader (appHandle
        (fun _ _ => Except.ok
          ⟨200, [("x-proxy-test", "42"), ("access-control-allow-origin", "abc")], some "hello"⟩)
        ⟨"GET", some "https://example.com", [], Json.obj []⟩).1.headers
      "Access-Control-Allow-Origin" = some "*" ∧
    getHeader (appHandle
        (fun _ _ => Except.ok
          ⟨200, [("x-proxy-test", "42"), ("access-control-allow-origin", "abc")], some "hello"⟩)
        ⟨"GET", some "https://example.com", [], Json.obj []⟩).1.headers
      "x-proxy-test" = some "42" ∧
    getHeader (appHandle
        (fun _ _ => Except.ok
          ⟨200, [("x-proxy-test", "42"), ("access-control-allow-origin", "abc")], some "hello"⟩)
        ⟨"GET", some "https://example.com", [], Json.obj []⟩).1.headers
      "access-control-allow-origin" = some "*" := by
  have h := success_path_header_relay
    (fun _ _ => Except.ok
      ⟨200, [("x-proxy-test", "42"), ("access-control-allow-origin", "abc")], some "hello"⟩)
    ⟨"GET", some "https://example.com", [], Json.obj []⟩ "https://example.com"
    ⟨200, [("x-proxy-test", "42"), ("access-control-allow-origin", "abc")], some "hello"⟩
    (by decide) rfl (by decide) rfl (by unfold HeadersLower; decide) (by decide)
  exact ⟨h.1.1, h.2.1 "x-proxy-test" "42" (by decide) (by decide),
    h.2.2 "access-control-allow-origin" "abc" (by decide) (by decide)⟩

/-- C5 counterexample: the claim says every response (including the 400
missing-url one) carries the wildcard CORS triad; the 400 response of a
GET without `url` has no Access-Control-Allow-Origin header at all. -/
theorem cors_triad_not_universal_counterexample :
    ¬ (getHeader (appHandle (fun _ _ => Except.ok ⟨200, [], none⟩)
        ⟨"GET", none, [], Json.obj []⟩).1.headers
        "Access-Control-Allow-Origin" = some "*") := by
  decide

/-- C5 (amended): per path. On the 400 missing-url path and on the 500
failure path the response carries none of the three CORS headers; on the
success path the response carries exactly the wildcard values for the
three CORS headers, regardless of what the target returned for those
names. -/
theorem cors_triad_by_path (fetchFn : FetchFn) (req : InboundRequest) :
    ((req.urlParam = none ∨ req.urlParam = some "") →
      (getHeader (appHandle fetchFn req).1.headers "Access-Control-Allow-Origin" = none ∧
       getHeader (appHandle fetchFn req).1.headers "Access-Control-Allow-Headers" = none ∧
       getHeader (appHandle fetchFn req).1.headers "Access-Control-Allow-Methods" = none)) ∧
    (∀ u t, req.urlParam = some u → u ≠ "" →
      fetchFn u (buildFetchOptions req) = Except.error t →
      (getHeader (appHandle fetchFn req).1.headers "Access-Control-Allow-Origin" = none ∧
       getHeader (appHandle fetchFn req).1.headers "Access-Control-Allow-Headers" = none ∧
       getHeader (appHandle fetchFn req).1.headers "Access-Control-Allow-Methods" = none)) ∧
    (∀ u tr, req.urlParam = some u → u ≠ "" →
      fetchFn u (buildFetchOptions req) = Except.ok tr →
      (getHeader (appHandle fetchFn req).1.headers "Access-Control-Allow-Origin" = some "*" ∧
       getHeader (appHandle fetchFn req).1.headers "Access-Control-Allow-Headers" = some "*" ∧
       getHeader (appHandle fetchFn req).1.headers "Access-Control-Allow-Methods" = some "*")) := by
  refine ⟨?_, ?_, ?_⟩
  · intro h
    rw [appHandle_missing fetchFn req h]
    exact ⟨rfl, rfl, rfl⟩
  · intro u t hu hne hf
    rw [appHandle_error fetchFn req u t hu hne hf]
    exact ⟨rfl, rfl, rfl⟩
  · intro u tr hu hne hf
    rw [appHandle_ok fetchFn req u tr hu hne hf]
    refine ⟨?_, ?_, ?_⟩ <;>
      · rw [getHeader_relayHeaders_skip tr.headers corsBase _
          (cors_skip_cond tr.headers _ (by decide))]
        decide

/-- C5 (amended) witness: all three paths at concrete inputs — a GET
without `url` (400) has no Access-Control-Allow-Origin header, a GET whose
fetch rejects (500) has none either, and a relayed success response reads
`*` even though the target sent its own value for that name. -/
theorem cors_triad_by_path_witness :
    getHeader (appHandle (fun _ _ => Except.error (Thrown.error "failfetch"))
        ⟨"GET", none, [], Json.obj []⟩).1.headers
      "Access-Control-Allow-Origin" = none ∧
    getHeader (appHandle (fun _ _ => Except.error (Thrown.error "failfetch"))
        ⟨"GET", some "https://example.com/fail", [], Json.obj []⟩).1.headers
      "Access-Control-Allow-Origin" = none ∧
    getHeader (appHandle
        (fun _ _ => Except.ok ⟨200, [("access-control-allow-origin", "abc")], some "hello"⟩)
        ⟨"GET", some "https://example.com", [], Json.obj []⟩).1.headers
      "Access-Control-Allow-Origin" = some "*" :=
  ⟨((cors_triad_by_path (fun _ _ => Except.error (Thrown.error "failfetch"))
      ⟨"GET", none, [], Json.obj []⟩).1 (Or.inl rfl)).1,
   ((cors_triad_by_path (fun _ _ => Except.error (Thrown.error "failfetch"))
      ⟨"GET", some "https://example.com/fail", [], Json.obj []⟩).2.1
      "https://example.com/fail" (Thrown.error "failfetch") rfl (by decide) rfl).1,
   ((cors_triad_by_path
      (fun _ _ => Except.ok ⟨200, [("access-control-allow-origin", "abc")], some "hello"⟩)
      ⟨"GET", some "https://example.com", [], Json.obj []⟩).2.2
      "https://example.com"
      ⟨200, [("access-control-allow-origin", "abc")], some "hello"⟩
      rfl (by decide) rfl).1⟩

/-- C6: for a request whose upper-cased method is POST, PUT or PATCH the
outbound body is the JSON serialization of the parsed inbound body and the
outbound `content-type` is `application/json` (whatever the inbound value
was); for any other method no outbound body is sent. -/
theorem write_methods_json_body (req : InboundRequest) :
    (["POST", "PUT", "PATCH"].contains (strUpper req.method) = true →
      (buildFetchOptions req).body = some (Json.stringify req.body) ∧
      objGet (buildFetchOptions req).headers "content-type" = some "application/json") ∧
    (["POST", "PUT", "PATCH"].contains (strUpper req.method) = false →
      (buildFetchOptions req).body = none) := by
  constructor
  · intro hm
    refine ⟨buildFetchOptions_body_write req hm, ?_⟩
    rw [buildFetchOptions_headers_write req hm]
    exact objGet_objSet_self _ _ _
  · intro hm
    exact buildFetchOptions_body_other req hm

/-- C6 witness: a lowercase-method `post` request with an inbound
`content-type: text/plain` header gets a JSON body and an overridden
content-type. -/
theorem write_methods_json_body_witness :
    (buildFetchOptions ⟨"post", some "https://example.com",
        [("content-type", "text/plain")], Json.obj [("foo", Json.str "bar")]⟩).body =
      some (Json.stringify (Json.obj [("foo", Json.str "bar")])) ∧
    objGet (buildFetchOptions ⟨"post", some "https://example.com",
        [("content-type", "text/plain")], Json.obj [("foo", Json.str "bar")]⟩).headers
      "content-type" = some "application/json" :=
  (write_methods_json_body ⟨"post", some "https://example.com",
      [("content-type", "text/plain")], Json.obj [("foo", Json.str "bar")]⟩).1 (by decide)

/-- C7 counterexample: the claim says every inbound header except Host is
copied verbatim into the outbound collection; for a POST with inbound
`content-type: text/plain` that header is not in the outbound collection
(it was overridden to application/json). -/
theorem header_copy_verbatim_counterexample :
    ("content-type", "text/plain") ∈
      (⟨"POST", some "https://example.com",
          [("host", "example.com"), ("content-type", "text/plain")],
          Json.obj []⟩ : InboundRequest).headers ∧
    ¬ (("content-type", "text/plain") ∈
      (buildFetchOptions ⟨"POST", some "https://example.com",
          [("host", "example.com"), ("content-type", "text/plain")],
          Json.obj []⟩).headers) := by
  decide

/-- C7 (amended): the outbound header set never includes Host
(case-insensitively), and every inbound header except Host appears in the
outbound collection verbatim — except the `content-type` header of a
POST/PUT/PATCH request, which is overridden to `application/json`. -/
theorem outbound_headers_except_host (req : InboundRequest)
    (hlc : HeadersLower req.headers) :
    (∀ p ∈ (buildFetchOptions req).headers, strLower (Prod.fst p) ≠ "host") ∧
    (∀ n v, (n, v) ∈ req.headers → n ≠ "host" →
      (n, v) ∈ (buildFetchOptions req).headers ∨
      (["POST", "PUT", "PATCH"].contains (strUpper req.method) = true ∧
        n = "content-type" ∧
        objGet (buildFetchOptions req).headers "content-type" =
          some "application/json")) := by
  constructor
  · intro p hp
    cases hmethod : ["POST", "PUT", "PATCH"].contains (strUpper req.method) with
    | true =>
        rw [buildFetchOptions_headers_write req hmethod] at hp
        rcases mem_objSet_elim _ _ _ p hp with hmem | heq
        · have hmf := List.mem_filter.mp hmem
          have hne : Prod.fst p ≠ "host" := by simpa using hmf.2
          rw [hlc p hmf.1]
          exact hne
        · rw [heq]
          decide
    | false =>
        rw [buildFetchOptions_headers_other req hmethod] at hp
        have hmf := List.mem_filter.mp hp
        have hne : Prod.fst p ≠ "host" := by simpa using hmf.2
        rw [hlc p hmf.1]
        exact hne
  · intro n v hmem hne
    have hmem' : (n, v) ∈ objDelete req.headers "host" :=
      List.mem_filter.mpr ⟨hmem, by simpa using hne⟩
    cases hmethod : ["POST", "PUT", "PATCH"].contains (strUpper req.method) with
    | true =>
        by_cases hct : n = "content-type"
        · right
          refine ⟨rfl, hct, ?_⟩
          rw [buildFetchOptions_headers_write req hmethod]
          exact objGet_objSet_self _ _ _
        · left
          rw [buildFetchOptions_headers_write req hmethod]
          exact mem_objSet_of_mem _ _ _ _ hmem' hct
    | false =>
        left
        rw [buildFetchOptions_headers_other req hmethod]
        exact hmem'

/-- C7 (amended) witness: a GET with a Host header and a custom header —
the custom header is relayed verbatim. -/
theorem outbound_headers_except_host_witness :
    ("x-a", "1") ∈ (buildFetchOptions ⟨"GET", some "https://example.com",
        [("host", "example.com"), ("x-a", "1")], Json.obj []⟩).headers ∨
    (["POST", "PUT", "PATCH"].contains (strUpper "GET") = true ∧
      "x-a" = "content-type" ∧
      objGet (buildFetchOptions ⟨"GET", some "https://example.com",
          [("host", "example.com"), ("x-a", "1")], Json.obj []⟩).headers
        "content-type" = some "application/json") :=
  (outbound_headers_except_host ⟨"GET", some "https://example.com",
      [("host", "example.com"), ("x-a", "1")], Json.obj []⟩
      (by unfold HeadersLower; decide)).2
    "x-a" "1" (by decide) (by decide)

/-- C8: on the success path of a non-OPTIONS request the client status
equals the target status, whatever the target returned. -/
theorem status_passthrough (fetchFn : FetchFn) (req : InboundRequest) (u : String)
    (tr : TargetResponse) (_hm : req.method ≠ "OPTIONS")
    (hu : req.urlParam = some u) (hne : u ≠ "")
    (hf : fetchFn u (buildFetchOptions req) = Except.ok tr) :
    (appHandle fetchFn req).1.status = tr.status := by
  rw [appHandle_ok fetchFn req u tr hu hne hf]

/-- C8 witness: a target 404 is relayed as 404. -/
theorem status_passthrough_witness :
    (appHandle (fun _ _ => Except.ok ⟨404, [], some "not found"⟩)
        ⟨"GET", some "https://example.com", [], Json.obj []⟩).1.status = 404 :=
  status_passthrough (fun _ _ => Except.ok ⟨404, [], some "not found"⟩)
    ⟨"GET", some "https://example.com", [], Json.obj []⟩ "https://example.com"
    ⟨404, [], some "not found"⟩ (by decide) rfl (by decide) rfl

/-- C9: every outbound request the handler dispatches carries
`redirect: 'follow'` in its options. -/
theorem outbound_redirect_follow (fetchFn : FetchFn) (req : InboundRequest)
    (u : String) (opts : FetchOptions)
    (h : (appHandle fetchFn req).2 = some (u, opts)) :
    opts.redirect = "follow" := by
  rcases hu : req.urlParam with _ | u'
  · rw [appHandle_missing fetchFn req (Or.inl hu)] at h
    simp at h
  · by_cases he : u' = ""
    · rw [appHandle_missing fetchFn req (Or.inr (by rw [hu, he]))] at h
      simp at h
    · cases hf : fetchFn u' (buildFetchOptions req) with
      | error t =>
          rw [appHandle_error fetchFn req u' t hu he hf] at h
          simp at h
          rw [← h.2]
          exact buildFetchOptions_redirect req
      | ok tr =>
          rw [appHandle_ok fetchFn req u' tr hu he hf] at h
          simp at h
          rw [← h.2]
          exact buildFetchOptions_redirect req

/-- C9 witness: a concrete GET dispatch carries `redirect: 'follow'`. -/
theorem outbound_redirect_follow_witness :
    (buildFetchOptions ⟨"GET", some "https://example.com", [], Json.obj []⟩).redirect =
      "follow" :=
  outbound_redirect_follow (fun _ _ => Except.ok ⟨200, [], none⟩)
    ⟨"GET", some "https://example.com", [], Json.obj []⟩ "https://example.com"
    (buildFetchOptions ⟨"GET", some "https://example.com", [], Json.obj []⟩) rfl

/-- C10: for every POST/PUT/PATCH request the outbound body is present and
equals `JSON.stringify(req.body)`; when the inbound request carried no
JSON body, `express.json()` left `req.body` as the empty object, so the
outbound body is the literal two-character string consisting of an opening
and a closing brace, with content-type `application/json`. -/
theorem empty_body_serializes_empty_object (req : InboundRequest) (raw : Option Json)
    (hm : ["POST", "PUT", "PATCH"].contains (strUpper req.method) = true)
    (hb : req.body = expressJson raw) :
    (buildFetchOptions req).body = some (Json.stringify req.body) ∧
    (raw = none →
      (buildFetchOptions req).body = some "\x7b\x7d" ∧
      objGet (buildFetchOptions req).headers "content-type" =
        some "application/json") := by
  constructor
  · exact buildFetchOptions_body_write req hm
  · intro hraw
    constructor
    · rw [buildFetchOptions_body_write req hm, hb, hraw]
      rfl
    · rw [buildFetchOptions_headers_write req hm]
      exact objGet_objSet_self _ _ _

/-- C10 witness: a POST with no JSON body sends exactly the serialized
empty object. -/
theorem empty_body_serializes_empty_object_witness :
    (buildFetchOptions ⟨"POST", some "https://example.com", [],
        expressJson none⟩).body = some "\x7b\x7d" ∧
    objGet (buildFetchOptions ⟨"POST", some "https://example.com", [],
        expressJson none⟩).headers "content-type" = some "application/json" :=
  (empty_body_serializes_empty_object
    ⟨"POST", some "https://example.com", [], expressJson none⟩ none
    (by decide) rfl).2 rfl

/-- C1: evaluation at the failing input. An OPTIONS request with `url`
present is settled by the `app.use('/proxy')` middleware, which is
registered before `app.options('/proxy')` and never calls `next()`: the
outbound fetch IS invoked and the target's status (here 200) and body are
relayed instead of a local 204 with empty body. -/
theorem options_request_reaches_fetch_eval :
    (appHandle (fun _ _ => Except.ok ⟨200, [("x-upstream", "yes")], some "target body"⟩)
        ⟨"OPTIONS", some "https://example.com", [], Json.obj []⟩).1.status = 200 ∧
    (appHandle (fun _ _ => Except.ok ⟨200, [("x-upstream", "yes")], some "target body"⟩)
        ⟨"OPTIONS", some "https://example.com", [], Json.obj []⟩).1.body = "target body" ∧
    (appHandle (fun _ _ => Except.ok ⟨200, [("x-upstream", "yes")], some "target body"⟩)
        ⟨"OPTIONS", some "https://example.com", [], Json.obj []⟩).2 =
      some ("https://example.com",
        buildFetchOptions ⟨"OPTIONS", some "https://example.com", [], Json.obj []⟩) := by
  refine ⟨rfl, rfl, ?_⟩
  decide

end UniversalProxy
